import Mathlib

/-!
Verification development for the MCP DevOps ClearCase adapter
(src/lib/server.js).

The program is a protocol adapter: each registered tool handler builds an
argument vector for the external `cleartool` binary, runs it through the
shared helper `executeClearToolCommand`, and converts the outcome into a
single text content block, catching every rejection.

Shallow embedding conventions:
- A subprocess run is summarised by `ExecResult` (exit code, accumulated
  stdout, accumulated stderr).  The behaviour of the external binary is an
  oracle `Env : String → List String → ExecResult` mapping a command name
  and argument vector to the run it would produce.
- `executeClearToolCommand` mirrors the JavaScript helper: resolve with
  `output.trim()` on exit code 0, otherwise reject with
  `error.trim() || "Process exited with code " ++ code`.  Rejections are
  `Except.error`, resolutions `Except.ok`.
- Each handler body returns its `Except` outcome together with the ordered
  list of subprocess invocations it performed (the trace).  A batch handler
  maps over its paths exactly as `resourcePaths.map(...)` under
  `Promise.all` does: every path is spawned, results are collected in
  request order; the deterministic model reports the first-in-order
  rejection (the JS race among rejections is abstracted to list order,
  which the claims do not depend on).
- JavaScript truthiness of optional strings and booleans is modelled by
  `jsTruthyS` and `jsTruthyB` (`undefined`, `""` and `false` are falsy).
- `comment.replace(/"/g, '\\"')` replaces every double-quote character
  (single-character global pattern), embedded character-by-character as
  `escapeQuotes`.
-/

structure ExecResult where
  code : Nat
  stdout : String
  stderr : String
deriving DecidableEq, Repr

abbrev Env := String → List String → ExecResult

abbrev Trace := List (String × List String)

/-- Embedding of JavaScript `String.prototype.trim()`: drop whitespace from
both ends of the string (structural recursion over the character list). -/
def jsTrim (s : String) : String :=
  String.mk (((s.data.dropWhile Char.isWhitespace).reverse.dropWhile Char.isWhitespace).reverse)

/-- Embedding of `s.split("\n")[0]`: the characters up to the first newline. -/
def firstLine (s : String) : String :=
  String.mk (s.data.takeWhile (fun c => c != '\n'))

/-- Embedding of the helper `executeClearToolCommand` in src/lib/server.js:
on close, exit code 0 resolves with trimmed stdout; any other code rejects
with trimmed stderr, or a generic status message when that is empty. -/
def executeClearToolCommand (r : ExecResult) : Except String String :=
  if r.code = 0 then
    Except.ok (jsTrim r.stdout)
  else
    Except.error
      (if jsTrim r.stderr = "" then "Process exited with code " ++ toString r.code
       else jsTrim r.stderr)

/-- JavaScript truthiness of an optional string parameter: absent and the
empty string are falsy. -/
def jsTruthyS : Option String → Bool
  | none => false
  | some s => s != ""

/-- JavaScript truthiness of an optional boolean parameter: absent and
`false` are falsy. -/
def jsTruthyB : Option Bool → Bool
  | none => false
  | some b => b

/-- Character-level embedding of `s.replace(/"/g, '\\"')`: every
double-quote character becomes a backslash followed by a double-quote. -/
def escapeChars : List Char → List Char
  | [] => []
  | c :: cs => if c = '"' then '\\' :: '"' :: escapeChars cs else c :: escapeChars cs

def escapeQuotes (s : String) : String :=
  String.mk (escapeChars s.data)

/-- Embedding of the comment-argument expression
`comment ? comment.replace(/"/g, '\\"') : <default>` shared by the
checkout, checkin and add handlers. -/
def jsCommentArg (comment : Option String) (dflt : String) : String :=
  if jsTruthyS comment then escapeQuotes (comment.getD ("")) else dflt

inductive ContentBlock where
  | text (s : String)
deriving DecidableEq, Repr

structure Response where
  content : List ContentBlock
deriving DecidableEq, Repr

/-- The requests accepted by the sixteen registered tools, one constructor
per `server.tool` registration, fields mirroring each parameter schema. -/
inductive Request where
  | get_clearcase_views
  | get_resource_status (resourcePath : String)
  | create_or_set_ucm_activity (activityId activityHeadline : Option String) (setActivity : Bool)
  | checkout_resources (resourcePaths : List String) (comment : Option String)
  | undo_checkout (resourcePaths : List String) (keepChanges : Option Bool)
  | checkin_resources (resourcePaths : List String) (comment : Option String) (checkinIdentical : Option Bool)
  | login (wanServer username password : String)
  | logout
  | add_view (viewPath : String)
  | update_view (viewPath : String)
  | add_resources (resourcePaths : List String) (comment : Option String)
  | hijack_resources (resourcePaths : List String)
  | undo_hijack (resourcePaths : List String)
  | rename_resource (resourcePath newName : String)
  | remove_resource (resourcePath : String)
  | open_file (filePath : String)

/-- Collect the outcomes of the per-path subprocess promises as
`Promise.all` delivers them: all succeed in request order, or the batch
rejects (the model picks the first-in-order rejection). -/
def collectAll : List (Except String String) → Except String (List String)
  | [] => Except.ok []
  | Except.error m :: _ => Except.error m
  | Except.ok s :: rest =>
    match collectAll rest with
    | Except.ok ss => Except.ok (s :: ss)
    | Except.error m => Except.error m

/-- A handler that performs one `cleartool` invocation and formats its
trimmed output with a success label. -/
def singleBody (env : Env) (label : String) (args : List String) :
    Except String String × Trace :=
  ((executeClearToolCommand (env ("cleartool") args)).map (fun out => label ++ out),
   [("cleartool", args)])

/-- A batch handler: one `cleartool` invocation per path (all spawned, as
`resourcePaths.map` creates every promise), outputs joined by newlines in
request order under the success label. -/
def batchBody (env : Env) (label : String) (argv : String → List String)
    (paths : List String) : Except String String × Trace :=
  ((collectAll (paths.map (fun p => executeClearToolCommand (env ("cleartool") (argv p))))).map
      (fun outs => label ++ String.intercalate ("\n") outs),
   paths.map (fun p => ("cleartool", argv p)))

/-- Embedding of the `create_or_set_ucm_activity` handler body: set by id
when `activityId` is truthy, else create by headline (optionally following
with `setactivity` on the first output line), else throw the local
validation error before any subprocess is spawned. -/
def createOrSetBody (env : Env) (activityId activityHeadline : Option String)
    (setActivity : Bool) : Except String String × Trace :=
  if jsTruthyS activityId then
    let aid := activityId.getD ("")
    match executeClearToolCommand (env ("cleartool") ["setactivity", aid]) with
    | Except.ok _ =>
      (Except.ok ("Activity " ++ aid ++ " set successfully."),
       [("cleartool", ["setactivity", aid])])
    | Except.error m => (Except.error m, [("cleartool", ["setactivity", aid])])
  else if jsTruthyS activityHeadline then
    let hl := activityHeadline.getD ("")
    match executeClearToolCommand (env ("cleartool") ["mkactivity", "-headline", hl]) with
    | Except.error m => (Except.error m, [("cleartool", ["mkactivity", "-headline", hl])])
    | Except.ok output =>
      if setActivity then
        let aid2 := firstLine output
        match executeClearToolCommand (env ("cleartool") ["setactivity", aid2]) with
        | Except.error m =>
          (Except.error m,
           [("cleartool", ["mkactivity", "-headline", hl]),
            ("cleartool", ["setactivity", aid2])])
        | Except.ok _ =>
          (Except.ok ("Activity created successfully:\n" ++ output),
           [("cleartool", ["mkactivity", "-headline", hl]),
            ("cleartool", ["setactivity", aid2])])
      else
        (Except.ok ("Activity created successfully:\n" ++ output),
         [("cleartool", ["mkactivity", "-headline", hl])])
  else
    (Except.error ("Either activityId or activityHeadline must be provided."), [])

/-- The try-block of each registered handler: the success text it would
return, or the error it would throw, together with the subprocess trace. -/
def handlerBody (env : Env) : Request → Except String String × Trace
  | Request.get_clearcase_views => singleBody env ("Views:\n") ["lsview"]
  | Request.get_resource_status p => singleBody env ("Resource status:\n") ["describe", p]
  | Request.create_or_set_ucm_activity aid ahl setA => createOrSetBody env aid ahl setA
  | Request.checkout_resources paths comment =>
    batchBody env ("Checkout results:\n")
      (fun p => ["checkout", "-c", jsCommentArg comment ("automated checkout"), p]) paths
  | Request.undo_checkout paths kc =>
    batchBody env ("Undo checkout results:\n")
      (fun p => ["uncheckout", if jsTruthyB kc then "-keep" else "-rm", p]) paths
  | Request.checkin_resources paths comment ci =>
    batchBody env ("Check-in results:\n")
      (fun p => ["checkin"] ++ (if jsTruthyB ci then ["-identical"] else []) ++
        ["-c", jsCommentArg comment ("automated checkin")] ++ [p]) paths
  | Request.login w u pw =>
    singleBody env ("Login successful:\n") ["login", "-server", w, "-user", u, "-password", pw]
  | Request.logout => singleBody env ("Logout successful:\n") ["logout"]
  | Request.add_view v => singleBody env ("View added successfully:\n") ["mkview", v]
  | Request.update_view v => singleBody env ("View updated successfully:\n") ["setcs", "-current", v]
  | Request.add_resources paths comment =>
    batchBody env ("Add results:\n")
      (fun p => ["mkelem", "-c", jsCommentArg comment ("automated add"), p]) paths
  | Request.hijack_resources paths =>
    batchBody env ("Hijack results:\n") (fun p => ["hijack", p]) paths
  | Request.undo_hijack paths =>
    batchBody env ("Undo hijack results:\n") (fun p => ["unhijack", p]) paths
  | Request.rename_resource p n =>
    singleBody env ("Resource renamed successfully:\n") ["mv", p, n]
  | Request.remove_resource p =>
    singleBody env ("Resource removed successfully:\n") ["rmname", p]
  | Request.open_file f => singleBody env ("File opened successfully:\n") ["describe", f]

/-- The per-operation error label used by each handler's catch block. -/
def errorLabel : Request → String
  | Request.get_clearcase_views => "Error retrieving views: "
  | Request.get_resource_status _ => "Error retrieving resource status: "
  | Request.create_or_set_ucm_activity _ _ _ => "Error creating or setting activity: "
  | Request.checkout_resources _ _ => "Error checking out resources: "
  | Request.undo_checkout _ _ => "Error undoing checkout: "
  | Request.checkin_resources _ _ _ => "Error checking in resources: "
  | Request.login _ _ _ => "Error during login: "
  | Request.logout => "Error during logout: "
  | Request.add_view _ => "Error adding view: "
  | Request.update_view _ => "Error updating view: "
  | Request.add_resources _ _ => "Error adding resources: "
  | Request.hijack_resources _ => "Error hijacking resources: "
  | Request.undo_hijack _ => "Error undoing hijack: "
  | Request.rename_resource _ _ => "Error renaming resource: "
  | Request.remove_resource _ => "Error removing resource: "
  | Request.open_file _ => "Error opening file: "

/-- A complete handler invocation: run the try-block and catch any error,
always producing a normal response with exactly one text block. -/
def handleRequest (env : Env) (req : Request) : Response :=
  match (handlerBody env req).1 with
  | Except.ok t => { content := [ContentBlock.text t] }
  | Except.error m => { content := [ContentBlock.text (errorLabel req ++ m)] }

/-- The ordered subprocess invocations a handler performs. -/
def callTrace (env : Env) (req : Request) : Trace :=
  (handlerBody env req).2

/-- The names passed to `server.tool`, in registration order. -/
def toolRegistry : List String :=
  ["get_clearcase_views", "get_resource_status", "create_or_set_ucm_activity",
   "checkout_resources", "undo_checkout", "checkin_resources", "login", "logout",
   "add_view", "update_view", "add_resources", "hijack_resources", "undo_hijack",
   "rename_resource", "remove_resource", "open_file"]

def execOk : Except String String → Bool
  | Except.ok _ => true
  | Except.error _ => false

/-- The number of adapter calls each handler actually performs: once per
path for the six batch operations; for activity creation 0, 1 or 2 calls
depending on which inputs are truthy and whether `mkactivity` succeeds
with `setActivity` requested; exactly once for every other operation. -/
def expectedCalls (env : Env) : Request → Nat
  | Request.checkout_resources paths _ => paths.length
  | Request.undo_checkout paths _ => paths.length
  | Request.checkin_resources paths _ _ => paths.length
  | Request.add_resources paths _ => paths.length
  | Request.hijack_resources paths => paths.length
  | Request.undo_hijack paths => paths.length
  | Request.create_or_set_ucm_activity aid ahl setA =>
    if jsTruthyS aid then 1
    else if jsTruthyS ahl then
      if setA && execOk (executeClearToolCommand
          (env ("cleartool") ["mkactivity", "-headline", ahl.getD ("")])) then 2
      else 1
    else 0
  | _ => 1

/-- A deterministic succeeding environment used for concrete witnesses:
every invocation exits 0 and echoes the argument vector on stdout. -/
def env0 : Env :=
  fun _ args => { code := 0, stdout := String.intercalate (" ") args, stderr := "" }

/-- A deterministic failing environment used for concrete witnesses. -/
def envFail : Env :=
  fun _ _ => { code := 1, stdout := "", stderr := " boom " }

instance : DecidableEq (Except String String) := fun a b =>
  match a, b with
  | Except.ok x, Except.ok y =>
    if h : x = y then isTrue (by rw [h]) else isFalse (by intro he; cases he; exact h rfl)
  | Except.error x, Except.error y =>
    if h : x = y then isTrue (by rw [h]) else isFalse (by intro he; cases he; exact h rfl)
  | Except.ok _, Except.error _ => isFalse (by intro he; cases he)
  | Except.error _, Except.ok _ => isFalse (by intro he; cases he)

theorem escapeChars_ne_nil (c : Char) (cs : List Char) : escapeChars (c :: cs) ≠ [] := by
  by_cases h : c = '"' <;> simp [escapeChars, h]

theorem escapeQuotes_ne_empty (s : String) (h : s ≠ "") : escapeQuotes s ≠ "" := by
  cases s with
  | mk l =>
    cases l with
    | nil => exact absurd rfl h
    | cons c cs =>
      intro he
      have hd : escapeChars (c :: cs) = [] := congrArg String.data he
      exact escapeChars_ne_nil c cs hd

theorem jsCommentArg_ne_empty (c : Option String) (d : String) (hd : d ≠ "") :
    jsCommentArg c d ≠ "" := by
  cases c with
  | none => simpa [jsCommentArg, jsTruthyS] using hd
  | some s =>
    by_cases hs : s = ""
    · subst hs
      simpa [jsCommentArg, jsTruthyS] using hd
    · have : jsTruthyS (some s) = true := by
        simp [jsTruthyS, bne_iff_ne, hs]
      simpa [jsCommentArg, this] using escapeQuotes_ne_empty s hs

theorem collectAll_map_ok {α : Type} (f : α → ExecResult) (l : List α)
    (h : ∀ a ∈ l, (f a).code = 0) :
    collectAll (l.map (fun a => executeClearToolCommand (f a))) =
      Except.ok (l.map (fun a => jsTrim (f a).stdout)) := by
  induction l with
  | nil => rfl
  | cons a t ih =>
    have ha : (f a).code = 0 := h a (by simp)
    have ht : ∀ b ∈ t, (f b).code = 0 := fun b hb => h b (by simp [hb])
    simp only [List.map_cons]
    rw [show executeClearToolCommand (f a) = Except.ok (jsTrim (f a).stdout) by
      simp [executeClearToolCommand, ha]]
    simp [collectAll, ih ht]

/-- C1: every handler invocation produces a normal response with exactly one
text content block; whenever the handler's try-block fails with message `m`,
the response text is the operation's error label followed by `m`; and every
non-zero exit status rejects with the captured trimmed error text, or a
generic exit-status message when that text is empty.  The handler function
is total, so no invocation raises past the handler. -/
theorem handler_catches_all_failures (env : Env) (req : Request) :
    (∃ t, (handleRequest env req).content = [ContentBlock.text t]) ∧
    (∀ m, (handlerBody env req).1 = Except.error m →
      (handleRequest env req).content = [ContentBlock.text (errorLabel req ++ m)]) ∧
    (∀ r : ExecResult, r.code ≠ 0 →
      executeClearToolCommand r =
        Except.error
          (if jsTrim r.stderr = "" then "Process exited with code " ++ toString r.code
           else jsTrim r.stderr)) := by
  refine ⟨?_, ?_, ?_⟩
  · cases h : (handlerBody env req).1 with
    | ok t => exact ⟨t, by simp [handleRequest, h]⟩
    | error m => exact ⟨errorLabel req ++ m, by simp [handleRequest, h]⟩
  · intro m hm
    simp [handleRequest, hm]
  · intro r hr
    simp [executeClearToolCommand, hr]

theorem handler_catches_all_failures_witness :
    (handleRequest envFail Request.get_clearcase_views).content =
      [ContentBlock.text ("Error retrieving views: boom")] := by
  have h := (handler_catches_all_failures envFail Request.get_clearcase_views).2.1
    ("boom") (by decide)
  exact h

/-- C2: the execution adapter resolves with the accumulated stdout trimmed
of surrounding whitespace when the exit status is zero, and rejects when the
status is non-zero with the trimmed accumulated stderr, or, when that
trimmed text is empty, with a message stating the observed exit status. -/
theorem executeClearToolCommand_contract (r : ExecResult) :
    (r.code = 0 → executeClearToolCommand r = Except.ok (jsTrim r.stdout)) ∧
    (r.code ≠ 0 →
      executeClearToolCommand r =
        Except.error
          (if jsTrim r.stderr = "" then "Process exited with code " ++ toString r.code
           else jsTrim r.stderr)) := by
  constructor
  · intro h
    simp [executeClearToolCommand, h]
  · intro h
    simp [executeClearToolCommand, h]

theorem executeClearToolCommand_contract_witness :
    executeClearToolCommand { code := 0, stdout := "  ok  ", stderr := "x" } =
      Except.ok ("ok") ∧
    executeClearToolCommand { code := 2, stdout := "", stderr := "  " } =
      Except.error ("Process exited with code 2") ∧
    executeClearToolCommand { code := 3, stdout := "", stderr := " denied " } =
      Except.error ("denied") := by
  refine ⟨?_, ?_, ?_⟩
  · exact ((executeClearToolCommand_contract { code := 0, stdout := "  ok  ", stderr := "x" }).1
      rfl).trans (by decide)
  · exact ((executeClearToolCommand_contract { code := 2, stdout := "", stderr := "  " }).2
      (by decide)).trans (by decide)
  · exact ((executeClearToolCommand_contract { code := 3, stdout := "", stderr := " denied " }).2
      (by decide)).trans (by decide)

/-- C3: a checkout_resources request over a non-empty path list where every
per-path subprocess exits zero invokes the binary once per path with an
independently constructed argument vector, and returns a single text block
consisting of the label, a newline, and the per-path trimmed outputs joined
by newlines in request order. -/
theorem checkout_batch_success (env : Env) (paths : List String) (comment : Option String)
    (_hne : paths ≠ [])
    (hok : ∀ p ∈ paths,
      (env ("cleartool") ["checkout", "-c", jsCommentArg comment ("automated checkout"), p]).code = 0) :
    callTrace env (Request.checkout_resources paths comment) =
      paths.map (fun p =>
        ("cleartool", ["checkout", "-c", jsCommentArg comment ("automated checkout"), p])) ∧
    handleRequest env (Request.checkout_resources paths comment) =
      { content := [ContentBlock.text ("Checkout results:\n" ++ String.intercalate ("\n")
          (paths.map (fun p =>
            jsTrim (env ("cleartool")
              ["checkout", "-c", jsCommentArg comment ("automated checkout"), p]).stdout)))] } := by
  constructor
  · rfl
  · have hc := collectAll_map_ok
      (fun p => env ("cleartool") ["checkout", "-c", jsCommentArg comment ("automated checkout"), p])
      paths hok
    simp only [handleRequest, handlerBody, batchBody] at *
    rw [hc]
    rfl

theorem checkout_batch_success_witness :
    callTrace env0 (Request.checkout_resources ["/a", "/b"] (some ("fix"))) =
      [("cleartool", ["checkout", "-c", "fix", "/a"]),
       ("cleartool", ["checkout", "-c", "fix", "/b"])] ∧
    handleRequest env0 (Request.checkout_resources ["/a", "/b"] (some ("fix"))) =
      { content := [ContentBlock.text
          ("Checkout results:\ncheckout -c fix /a\ncheckout -c fix /b")] } := by
  have h := checkout_batch_success env0 ["/a", "/b"] (some ("fix")) (by decide) (by decide)
  exact ⟨h.1.trans (by decide), h.2.trans (by decide)⟩

/-- C4 counterexample: `create_or_set_ucm_activity` is not a batch
(multi-path) operation, yet with a headline, `setActivity` true and a
succeeding binary it invokes the Execution Adapter twice, not exactly
once as the claim states. -/
theorem adapter_calls_not_always_once :
    (callTrace env0 (Request.create_or_set_ucm_activity none (some ("hl")) true)).length ≠ 1 := by
  decide

/-- C4 (amended): every handler calls the Execution Adapter exactly once
per invocation, except the six batch operations, which call it exactly once
per path item, and except `create_or_set_ucm_activity`, which calls it zero
times when neither activity input is truthy, twice when it creates by
headline successfully with `setActivity` true, and once otherwise. -/
theorem adapter_calls_per_invocation (env : Env) (req : Request) :
    (callTrace env req).length = expectedCalls env req := by
  cases req with
  | get_clearcase_views => rfl
  | get_resource_status p => rfl
  | login w u pw => rfl
  | logout => rfl
  | add_view v => rfl
  | update_view v => rfl
  | rename_resource p n => rfl
  | remove_resource p => rfl
  | open_file f => rfl
  | checkout_resources paths comment => simp [callTrace, handlerBody, batchBody, expectedCalls]
  | undo_checkout paths kc => simp [callTrace, handlerBody, batchBody, expectedCalls]
  | checkin_resources paths comment ci => simp [callTrace, handlerBody, batchBody, expectedCalls]
  | add_resources paths comment => simp [callTrace, handlerBody, batchBody, expectedCalls]
  | hijack_resources paths => simp [callTrace, handlerBody, batchBody, expectedCalls]
  | undo_hijack paths => simp [callTrace, handlerBody, batchBody, expectedCalls]
  | create_or_set_ucm_activity aid ahl setA =>
    simp only [callTrace, handlerBody, createOrSetBody, expectedCalls]
    cases haid : jsTruthyS aid with
    | true =>
      simp only [haid, if_true]
      cases hr : executeClearToolCommand (env ("cleartool") ["setactivity", aid.getD ("")]) <;>
        simp [hr]
    | false =>
      cases hahl : jsTruthyS ahl with
      | false => simp [haid, hahl]
      | true =>
        simp only [haid, hahl, Bool.false_eq_true, if_false, if_true]
        cases hr : executeClearToolCommand (env ("cleartool") ["mkactivity", "-headline", ahl.getD ("")]) with
        | error m => simp [hr, execOk]
        | ok output =>
          cases setA with
          | false => simp [hr, execOk]
          | true =>
            simp only [hr, execOk, Bool.true_and, if_true]
            cases hr2 : executeClearToolCommand (env ("cleartool") ["setactivity", firstLine output]) <;>
              simp [hr2]

/-- C5 counterexample: the registration table passes sixteen tool names to
`server.tool`, not twenty-one. -/
theorem toolRegistry_not_twentyone : toolRegistry.length ≠ 21 := by
  decide

/-- C5 (amended): the Tool Registry declares exactly 16 supported
operations, covering listing views, describing a resource, creating or
setting a work-tracking activity, checkout, undo-checkout, checkin, login,
logout, add or update a view, add a resource, hijack and undo-hijack,
rename, remove, and an open operation that issues the same describe
invocation as the resource-status operation. -/
theorem toolRegistry_sixteen_ops :
    toolRegistry.length = 16 ∧
    toolRegistry =
      ["get_clearcase_views", "get_resource_status", "create_or_set_ucm_activity",
       "checkout_resources", "undo_checkout", "checkin_resources", "login", "logout",
       "add_view", "update_view", "add_resources", "hijack_resources", "undo_hijack",
       "rename_resource", "remove_resource", "open_file"] ∧
    (∀ env : Env, ∀ f : String,
      callTrace env (Request.open_file f) = [("cleartool", ["describe", f])] ∧
      callTrace env (Request.open_file f) = callTrace env (Request.get_resource_status f)) :=
  ⟨by decide, rfl, fun _ _ => ⟨rfl, rfl⟩⟩

/-- C6: invoking `create_or_set_ucm_activity` with neither `activityId` nor
`activityHeadline` throws the local validation error before any subprocess
is spawned (the call trace is empty), and the failure is delivered as a
normal error-labeled text response. -/
theorem activity_validation_no_spawn (env : Env) (setA : Bool) :
    handlerBody env (Request.create_or_set_ucm_activity none none setA) =
      (Except.error ("Either activityId or activityHeadline must be provided."), []) ∧
    callTrace env (Request.create_or_set_ucm_activity none none setA) = [] ∧
    handleRequest env (Request.create_or_set_ucm_activity none none setA) =
      { content := [ContentBlock.text
          ("Error creating or setting activity: Either activityId or activityHeadline must be provided.")] } :=
  ⟨rfl, rfl, rfl⟩

/-- C7: each per-path checkin argument vector is `checkin`, then
`-identical` exactly when `checkinIdentical` is `some true`, then `-c` and
the comment value, then the path; the `-identical` flag sits before the
comment flag and is omitted when `checkinIdentical` is false or absent. -/
theorem checkin_argv_identical_position (env : Env) (paths : List String)
    (comment : Option String) (ci : Option Bool) :
    callTrace env (Request.checkin_resources paths comment ci) =
      paths.map (fun p => ("cleartool",
        if ci = some true then
          ["checkin", "-identical", "-c", jsCommentArg comment ("automated checkin"), p]
        else
          ["checkin", "-c", jsCommentArg comment ("automated checkin"), p])) := by
  cases ci with
  | none => rfl
  | some b =>
    cases b with
    | false => rfl
    | true => rfl

/-- C9: each per-path undo-checkout argument vector is
`uncheckout -keep <path>` exactly when `keepChanges` is `some true`, and
`uncheckout -rm <path>` when `keepChanges` is absent or false: discarding
changes is the default. -/
theorem undo_checkout_default_rm (env : Env) (paths : List String) (kc : Option Bool) :
    callTrace env (Request.undo_checkout paths kc) =
      paths.map (fun p => ("cleartool",
        if kc = some true then ["uncheckout", "-keep", p] else ["uncheckout", "-rm", p])) := by
  cases kc with
  | none => rfl
  | some b =>
    cases b with
    | false => rfl
    | true => rfl

theorem escapeChars_eq_bind (l : List Char) :
    escapeChars l = l.flatMap (fun ch => if ch = '"' then ['\\', '"'] else [ch]) := by
  induction l with
  | nil => rfl
  | cons c cs ih => by_cases h : c = '"' <;> simp [escapeChars, h, ih]

/-- C8: when the comment of a checkout, checkin or add request contains a
double-quote character, the value inserted after the `-c` flag in every
per-path argument vector is the comment with each double-quote replaced by
a backslash-escaped double-quote. -/
theorem comment_quote_escaping (env : Env) (paths : List String) (c : String)
    (ci : Option Bool) (hq : '"' ∈ c.data) :
    callTrace env (Request.checkout_resources paths (some c)) =
      paths.map (fun p => ("cleartool", ["checkout", "-c", escapeQuotes c, p])) ∧
    callTrace env (Request.checkin_resources paths (some c) ci) =
      paths.map (fun p => ("cleartool",
        ["checkin"] ++ (if jsTruthyB ci then ["-identical"] else []) ++
          ["-c", escapeQuotes c] ++ [p])) ∧
    callTrace env (Request.add_resources paths (some c)) =
      paths.map (fun p => ("cleartool", ["mkelem", "-c", escapeQuotes c, p])) ∧
    (escapeQuotes c).data =
      c.data.flatMap (fun ch => if ch = '"' then ['\\', '"'] else [ch]) := by
  have hcne : c ≠ "" := by
    intro he
    subst he
    simp at hq
  have harg : ∀ d, jsCommentArg (some c) d = escapeQuotes c := by
    intro d
    simp [jsCommentArg, jsTruthyS, bne_iff_ne, hcne]
  refine ⟨?_, ?_, ?_, ?_⟩
  · simp [callTrace, handlerBody, batchBody, harg]
  · simp [callTrace, handlerBody, batchBody, harg]
  · simp [callTrace, handlerBody, batchBody, harg]
  · exact escapeChars_eq_bind c.data

theorem comment_quote_escaping_witness :
    callTrace env0 (Request.checkout_resources ["/x"] (some ("a\"b"))) =
      [("cleartool", ["checkout", "-c", "a\\\"b", "/x"])] ∧
    (escapeQuotes ("a\"b")).data = ['a', '\\', '"', 'b'] := by
  have h := comment_quote_escaping env0 ["/x"] ("a\"b") none (by decide)
  exact ⟨h.1.trans (by decide), h.2.2.2.trans (by decide)⟩

/-- C10: when the comment parameter is absent or the empty string, the
checkout, checkin and add handlers pass their fixed operation-specific
default comment as the `-c` value, and the `-c` value is never the empty
string for any comment. -/
theorem default_comment_values (env : Env) (paths : List String) (ci : Option Bool) :
    callTrace env (Request.checkout_resources paths none) =
      paths.map (fun p => ("cleartool", ["checkout", "-c", "automated checkout", p])) ∧
    callTrace env (Request.checkout_resources paths (some (""))) =
      paths.map (fun p => ("cleartool", ["checkout", "-c", "automated checkout", p])) ∧
    callTrace env (Request.checkin_resources paths none ci) =
      paths.map (fun p => ("cleartool",
        ["checkin"] ++ (if jsTruthyB ci then ["-identical"] else []) ++
          ["-c", "automated checkin"] ++ [p])) ∧
    callTrace env (Request.checkin_resources paths (some ("")) ci) =
      paths.map (fun p => ("cleartool",
        ["checkin"] ++ (if jsTruthyB ci then ["-identical"] else []) ++
          ["-c", "automated checkin"] ++ [p])) ∧
    callTrace env (Request.add_resources paths none) =
      paths.map (fun p => ("cleartool", ["mkelem", "-c", "automated add", p])) ∧
    callTrace env (Request.add_resources paths (some (""))) =
      paths.map (fun p => ("cleartool", ["mkelem", "-c", "automated add", p])) ∧
    (∀ c : Option String,
      jsCommentArg c ("automated checkout") ≠ "" ∧
      jsCommentArg c ("automated checkin") ≠ "" ∧
      jsCommentArg c ("automated add") ≠ "") :=
  ⟨rfl, rfl, rfl, rfl, rfl, rfl, fun c =>
    ⟨jsCommentArg_ne_empty c ("automated checkout") (by decide),
     jsCommentArg_ne_empty c ("automated checkin") (by decide),
     jsCommentArg_ne_empty c ("automated add") (by decide)⟩⟩

theorem default_comment_values_witness :
    callTrace env0 (Request.checkout_resources ["/x"] (some (""))) =
      [("cleartool", ["checkout", "-c", "automated checkout", "/x"])] ∧
    jsCommentArg (some ("")) ("automated add") ≠ "" := by
  have h := default_comment_values env0 ["/x"] none
  exact ⟨h.2.1.trans (by decide), (h.2.2.2.2.2.2 (some (""))).2.2⟩
